import Mathlib

/-!
Verification of the event retrieval and classification pipeline of
claude-teleport-analyzer: a shallow embedding of the JSON data model
(src/types.rs), the serde-derived decoding and encoding of session
events, session-ID validation and paginated event fetching
(src/client.rs), and the filter/search predicates (src/main.rs),
together with proofs of the specified properties.
-/

namespace Teleport

/-! ## JSON values

A model of serde_json::Value.  Numbers are restricted to naturals,
which covers every numeric field of this program (u64 wire fields).
Objects are association lists; lookup takes the first binding.
-/

inductive Json where
  | null : Json
  | bool (b : Bool) : Json
  | num (n : Nat) : Json
  | str (s : String) : Json
  | arr (elems : List Json) : Json
  | obj (fields : List (String × Json)) : Json
deriving Repr

/-- Look up a field of a JSON object association list. -/
def getField (o : List (String × Json)) (k : String) : Option Json :=
  match o with
  | [] => none
  | (k', v) :: rest => if k' = k then some v else getField rest k

/-- The `type` tag of a JSON value, when it is an object carrying a string tag. -/
def Json.tag : Json → Option String
  | .obj o =>
    match getField o "type" with
    | some (.str t) => some t
    | _ => none
  | _ => none

/-! ## Event data model (src/types.rs) -/

structure SystemEvent where
  created_at : Option String
  uuid : Option String
  subtype : Option String
  session_id : Option String
  model : Option String
  cwd : Option String
  claude_code_version : Option String
  tools : Option (List String)
  agents : Option (List String)
  skills : Option (List String)
  slash_commands : Option (List String)
  mcp_servers : Option (List Json)
  permission_mode : Option String
  fast_mode_state : Option String
  output_style : Option String

/-- User content is a plain string or a list of opaque JSON blocks
(`#[serde(untagged)]` in the source). -/
inductive UserContent where
  | Text (s : String) : UserContent
  | Blocks (blocks : List Json) : UserContent

def UserContent.as_text : UserContent → Option String
  | .Text s => some s
  | .Blocks _ => none

structure UserMessage where
  role : Option String
  content : UserContent

structure UserEvent where
  created_at : Option String
  uuid : Option String
  session_id : Option String
  message : UserMessage
  parent_tool_use_id : Option String
  is_replay : Option Bool

structure ThinkingBlock where
  thinking : Option String
  signature : Option String

structure TextBlock where
  text : Option String

structure ToolUseBlock where
  id : Option String
  name : Option String
  input : Option Json

structure ToolResultBlock where
  tool_use_id : Option String
  content : Option Json
  is_error : Option Bool

/-- A content block in an assistant message (`#[serde(tag = "type")]`
with an `#[serde(other)]` catch-all `Other`). -/
inductive ContentBlock where
  | Thinking (b : ThinkingBlock) : ContentBlock
  | Text (b : TextBlock) : ContentBlock
  | ToolUse (b : ToolUseBlock) : ContentBlock
  | ToolResult (b : ToolResultBlock) : ContentBlock
  | Other : ContentBlock

structure AssistantMessage where
  role : Option String
  content : List ContentBlock

structure AssistantEvent where
  created_at : Option String
  uuid : Option String
  session_id : Option String
  message : AssistantMessage

structure ToolUseSummaryEvent where
  created_at : Option String
  uuid : Option String
  session_id : Option String
  summary : Option String
  preceding_tool_use_ids : Option (List String)

structure ToolProgressEvent where
  created_at : Option String
  uuid : Option String
  session_id : Option String
  tool_name : Option String
  tool_use_id : Option String
  parent_tool_use_id : Option String
  elapsed_time_seconds : Option Nat

structure ResultEvent where
  created_at : Option String
  duration_ms : Option Nat
  duration_api_ms : Option Nat
  errors : Option (List String)

structure ControlResponseData where
  subtype : Option String

structure ControlResponseEvent where
  created_at : Option String
  response : Option ControlResponseData

structure EnvManagerLogData where
  category : Option String
  content : Option String
  level : Option String
  timestamp : Option String
  extra : Option Json

structure EnvManagerLogEvent where
  created_at : Option String
  uuid : Option String
  data : Option EnvManagerLogData

/-- The tagged union over every event type the sessions API can return
(`#[serde(tag = "type", rename_all = "snake_case")]` with an
`#[serde(other)]` catch-all `Unknown`). -/
inductive SessionEvent where
  | System (e : SystemEvent) : SessionEvent
  | User (e : UserEvent) : SessionEvent
  | Assistant (e : AssistantEvent) : SessionEvent
  | ToolUseSummary (e : ToolUseSummaryEvent) : SessionEvent
  | ToolProgress (e : ToolProgressEvent) : SessionEvent
  | Result (e : ResultEvent) : SessionEvent
  | ControlResponse (e : ControlResponseEvent) : SessionEvent
  | EnvManagerLog (e : EnvManagerLogEvent) : SessionEvent
  | Unknown : SessionEvent

def SessionEvent.event_type : SessionEvent → String
  | .System _ => "system"
  | .User _ => "user"
  | .Assistant _ => "assistant"
  | .ToolUseSummary _ => "tool_use_summary"
  | .ToolProgress _ => "tool_progress"
  | .Result _ => "result"
  | .ControlResponse _ => "control_response"
  | .EnvManagerLog _ => "env_manager_log"
  | .Unknown => "unknown"

def SessionEvent.created_at : SessionEvent → Option String
  | .System e => e.created_at
  | .User e => e.created_at
  | .Assistant e => e.created_at
  | .ToolUseSummary e => e.created_at
  | .ToolProgress e => e.created_at
  | .Result e => e.created_at
  | .ControlResponse e => e.created_at
  | .EnvManagerLog e => e.created_at
  | .Unknown => none

def SessionEvent.is_conversation : SessionEvent → Bool
  | .System _ => true
  | .User _ => true
  | .Assistant _ => true
  | .Result _ => true
  | _ => false

/-! ## Session-ID validation (src/client.rs, validate_session_id)

Rust's `str::len` is the UTF-8 byte length, modelled by
`String.utf8ByteSize`.
-/

/-- `str::starts_with` on a string pattern: a byte-level prefix test,
which for valid UTF-8 coincides with the character-level prefix test. -/
def strStartsWith (s p : String) : Bool :=
  p.data.isPrefixOf s.data

def validate_session_id (id : String) : Except String Unit :=
  if ¬ strStartsWith id "session_" ∨ id.utf8ByteSize < 16 then
    .error ("Invalid session ID format: " ++ id)
  else
    .ok ()

/-- The spec's regular expression `^session_.{8,}`: the literal prefix
followed by at least eight further characters, i.e. at least sixteen
characters in total. -/
def matchesSpecRegex (s : String) : Prop :=
  strStartsWith s "session_" = true ∧ 16 ≤ s.length

instance (s : String) : Decidable (matchesSpecRegex s) := by
  unfold matchesSpecRegex; infer_instance

/-! ## Decoding (serde derive semantics for the types in src/types.rs)

Optional fields decode a missing key or a JSON null to `none`, and any
other value must have the field's type.  Internally tagged unions read
the string `type` field; a missing tag is a decode error, a present
string tag not matching any fixed variant selects the `#[serde(other)]`
catch-all.
-/

def dOptStr : Option Json → Except String (Option String)
  | none => .ok none
  | some .null => .ok none
  | some (.str s) => .ok (some s)
  | some _ => .error "invalid type: expected a string"

def dOptNat : Option Json → Except String (Option Nat)
  | none => .ok none
  | some .null => .ok none
  | some (.num n) => .ok (some n)
  | some _ => .error "invalid type: expected an integer"

def dOptBool : Option Json → Except String (Option Bool)
  | none => .ok none
  | some .null => .ok none
  | some (.bool b) => .ok (some b)
  | some _ => .error "invalid type: expected a boolean"

def dStr : Json → Except String String
  | .str s => .ok s
  | _ => .error "invalid type: expected a string"

/-- Decode every element of a sequence, failing on the first failure. -/
def exMapM (f : α → Except String β) : List α → Except String (List β)
  | [] => .ok []
  | x :: xs =>
    (f x).bind fun y =>
    (exMapM f xs).bind fun ys =>
    .ok (y :: ys)

def dOptStrList : Option Json → Except String (Option (List String))
  | none => .ok none
  | some .null => .ok none
  | some (.arr xs) => (exMapM dStr xs).map some
  | some _ => .error "invalid type: expected a sequence"

def dOptJson : Option Json → Except String (Option Json)
  | none => .ok none
  | some .null => .ok none
  | some v => .ok (some v)

def dOptJsonList : Option Json → Except String (Option (List Json))
  | none => .ok none
  | some .null => .ok none
  | some (.arr xs) => .ok (some xs)
  | some _ => .error "invalid type: expected a sequence"

def decodeSystemFields (o : List (String × Json)) : Except String SystemEvent :=
  (dOptStr (getField o "created_at")).bind fun created_at =>
  (dOptStr (getField o "uuid")).bind fun uuid =>
  (dOptStr (getField o "subtype")).bind fun subtype =>
  (dOptStr (getField o "session_id")).bind fun session_id =>
  (dOptStr (getField o "model")).bind fun model =>
  (dOptStr (getField o "cwd")).bind fun cwd =>
  (dOptStr (getField o "claude_code_version")).bind fun claude_code_version =>
  (dOptStrList (getField o "tools")).bind fun tools =>
  (dOptStrList (getField o "agents")).bind fun agents =>
  (dOptStrList (getField o "skills")).bind fun skills =>
  (dOptStrList (getField o "slash_commands")).bind fun slash_commands =>
  (dOptJsonList (getField o "mcp_servers")).bind fun mcp_servers =>
  (dOptStr (getField o "permissionMode")).bind fun permission_mode =>
  (dOptStr (getField o "fast_mode_state")).bind fun fast_mode_state =>
  (dOptStr (getField o "output_style")).bind fun output_style =>
  .ok { created_at, uuid, subtype, session_id, model, cwd,
        claude_code_version, tools, agents, skills, slash_commands,
        mcp_servers, permission_mode, fast_mode_state, output_style }

/-- `#[serde(untagged)]`: the plain-string interpretation is tried
first, then the list-of-blocks interpretation. -/
def decodeUserContent : Json → Except String UserContent
  | .str s => .ok (.Text s)
  | .arr xs => .ok (.Blocks xs)
  | _ => .error "data did not match any variant of untagged enum UserContent"

def decodeUserMessage : Json → Except String UserMessage
  | .obj o =>
    (dOptStr (getField o "role")).bind fun role =>
    ((match getField o "content" with
      | none => .error "missing field content"
      | some .null => .error "data did not match any variant of untagged enum UserContent"
      | some v => decodeUserContent v : Except String UserContent)).bind fun content =>
    .ok { role, content }
  | _ => .error "invalid type: expected a map"

def decodeUserFields (o : List (String × Json)) : Except String UserEvent :=
  (dOptStr (getField o "created_at")).bind fun created_at =>
  (dOptStr (getField o "uuid")).bind fun uuid =>
  (dOptStr (getField o "session_id")).bind fun session_id =>
  ((match getField o "message" with
    | none => .error "missing field message"
    | some v => decodeUserMessage v : Except String UserMessage)).bind fun message =>
  (dOptStr (getField o "parent_tool_use_id")).bind fun parent_tool_use_id =>
  (dOptBool (getField o "isReplay")).bind fun is_replay =>
  .ok { created_at, uuid, session_id, message, parent_tool_use_id, is_replay }

def decodeContentBlock : Json → Except String ContentBlock
  | .obj o =>
    match getField o "type" with
    | none => .error "missing field type"
    | some (.str t) =>
      if t = "thinking" then
        (dOptStr (getField o "thinking")).bind fun thinking =>
        (dOptStr (getField o "signature")).bind fun signature =>
        .ok (.Thinking { thinking, signature })
      else if t = "text" then
        (dOptStr (getField o "text")).bind fun text =>
        .ok (.Text { text })
      else if t = "tool_use" then
        (dOptStr (getField o "id")).bind fun id =>
        (dOptStr (getField o "name")).bind fun name =>
        (dOptJson (getField o "input")).bind fun input =>
        .ok (.ToolUse { id, name, input })
      else if t = "tool_result" then
        (dOptStr (getField o "tool_use_id")).bind fun tool_use_id =>
        (dOptJson (getField o "content")).bind fun content =>
        (dOptBool (getField o "is_error")).bind fun is_error =>
        .ok (.ToolResult { tool_use_id, content, is_error })
      else
        .ok .Other
    | some _ => .error "invalid type of tag field type"
  | _ => .error "invalid type: expected a map"

def decodeAssistantMessage : Json → Except String AssistantMessage
  | .obj o =>
    (dOptStr (getField o "role")).bind fun role =>
    ((match getField o "content" with
      | none => .error "missing field content"
      | some (.arr xs) => exMapM decodeContentBlock xs
      | some _ => .error "invalid type: expected a sequence" :
        Except String (List ContentBlock))).bind fun content =>
    .ok { role, content }
  | _ => .error "invalid type: expected a map"

def decodeAssistantFields (o : List (String × Json)) : Except String AssistantEvent :=
  (dOptStr (getField o "created_at")).bind fun created_at =>
  (dOptStr (getField o "uuid")).bind fun uuid =>
  (dOptStr (getField o "session_id")).bind fun session_id =>
  ((match getField o "message" with
    | none => .error "missing field message"
    | some v => decodeAssistantMessage v : Except String AssistantMessage)).bind fun message =>
  .ok { created_at, uuid, session_id, message }

def decodeToolUseSummaryFields (o : List (String × Json)) :
    Except String ToolUseSummaryEvent :=
  (dOptStr (getField o "created_at")).bind fun created_at =>
  (dOptStr (getField o "uuid")).bind fun uuid =>
  (dOptStr (getField o "session_id")).bind fun session_id =>
  (dOptStr (getField o "summary")).bind fun summary =>
  (dOptStrList (getField o "preceding_tool_use_ids")).bind fun preceding_tool_use_ids =>
  .ok { created_at, uuid, session_id, summary, preceding_tool_use_ids }

def decodeToolProgressFields (o : List (String × Json)) :
    Except String ToolProgressEvent :=
  (dOptStr (getField o "created_at")).bind fun created_at =>
  (dOptStr (getField o "uuid")).bind fun uuid =>
  (dOptStr (getField o "session_id")).bind fun session_id =>
  (dOptStr (getField o "tool_name")).bind fun tool_name =>
  (dOptStr (getField o "tool_use_id")).bind fun tool_use_id =>
  (dOptStr (getField o "parent_tool_use_id")).bind fun parent_tool_use_id =>
  (dOptNat (getField o "elapsed_time_seconds")).bind fun elapsed_time_seconds =>
  .ok { created_at, uuid, session_id, tool_name, tool_use_id,
        parent_tool_use_id, elapsed_time_seconds }

def decodeResultFields (o : List (String × Json)) : Except String ResultEvent :=
  (dOptStr (getField o "created_at")).bind fun created_at =>
  (dOptNat (getField o "duration_ms")).bind fun duration_ms =>
  (dOptNat (getField o "duration_api_ms")).bind fun duration_api_ms =>
  (dOptStrList (getField o "errors")).bind fun errors =>
  .ok { created_at, duration_ms, duration_api_ms, errors }

def decodeControlResponseData : Json → Except String ControlResponseData
  | .obj o =>
    (dOptStr (getField o "subtype")).bind fun subtype =>
    .ok { subtype }
  | _ => .error "invalid type: expected a map"

def decodeControlResponseFields (o : List (String × Json)) :
    Except String ControlResponseEvent :=
  (dOptStr (getField o "created_at")).bind fun created_at =>
  ((match getField o "response" with
    | none => .ok none
    | some .null => .ok none
    | some v => (decodeControlResponseData v).map some :
      Except String (Option ControlResponseData))).bind fun response =>
  .ok { created_at, response }

def decodeEnvManagerLogData : Json → Except String EnvManagerLogData
  | .obj o =>
    (dOptStr (getField o "category")).bind fun category =>
    (dOptStr (getField o "content")).bind fun content =>
    (dOptStr (getField o "level")).bind fun level =>
    (dOptStr (getField o "timestamp")).bind fun timestamp =>
    (dOptJson (getField o "extra")).bind fun extra =>
    .ok { category, content, level, timestamp, extra }
  | _ => .error "invalid type: expected a map"

def decodeEnvManagerLogFields (o : List (String × Json)) :
    Except String EnvManagerLogEvent :=
  (dOptStr (getField o "created_at")).bind fun created_at =>
  (dOptStr (getField o "uuid")).bind fun uuid =>
  ((match getField o "data" with
    | none => .ok none
    | some .null => .ok none
    | some v => (decodeEnvManagerLogData v).map some :
      Except String (Option EnvManagerLogData))).bind fun data =>
  .ok { created_at, uuid, data }

/-- The eight fixed wire discriminants of SessionEvent. -/
def fixedEventTags : List String :=
  ["system", "user", "assistant", "tool_use_summary", "tool_progress",
   "result", "control_response", "env_manager_log"]

/-- Decoding a SessionEvent: internally tagged by the `type` field,
with the `#[serde(other)]` variant `Unknown` selected by any
unrecognized string tag.  A missing tag field is a decode error. -/
def decodeSessionEvent : Json → Except String SessionEvent
  | .obj o =>
    match getField o "type" with
    | none => .error "missing field type"
    | some (.str t) =>
      if t = "system" then (decodeSystemFields o).map .System
      else if t = "user" then (decodeUserFields o).map .User
      else if t = "assistant" then (decodeAssistantFields o).map .Assistant
      else if t = "tool_use_summary" then (decodeToolUseSummaryFields o).map .ToolUseSummary
      else if t = "tool_progress" then (decodeToolProgressFields o).map .ToolProgress
      else if t = "result" then (decodeResultFields o).map .Result
      else if t = "control_response" then (decodeControlResponseFields o).map .ControlResponse
      else if t = "env_manager_log" then (decodeEnvManagerLogFields o).map .EnvManagerLog
      else .ok .Unknown
    | some _ => .error "invalid type of tag field type"
  | _ => .error "invalid type: expected a map"

/-! ## Encoding (serde Serialize derive semantics)

Optional fields serialize `none` as JSON null (no skip attributes in the
source); internally tagged unions emit the tag as a leading `type`
field.
-/

def jStr : Option String → Json
  | none => .null
  | some s => .str s

def jNat : Option Nat → Json
  | none => .null
  | some n => .num n

def jBool : Option Bool → Json
  | none => .null
  | some b => .bool b

def jStrList : Option (List String) → Json
  | none => .null
  | some xs => .arr (xs.map .str)

def jJson : Option Json → Json
  | none => .null
  | some v => v

def jJsonList : Option (List Json) → Json
  | none => .null
  | some xs => .arr xs

def encodeUserContent : UserContent → Json
  | .Text s => .str s
  | .Blocks xs => .arr xs

def encodeUserMessage (m : UserMessage) : Json :=
  .obj [("role", jStr m.role), ("content", encodeUserContent m.content)]

def encodeContentBlock : ContentBlock → Json
  | .Thinking b => .obj [("type", .str "thinking"),
      ("thinking", jStr b.thinking), ("signature", jStr b.signature)]
  | .Text b => .obj [("type", .str "text"), ("text", jStr b.text)]
  | .ToolUse b => .obj [("type", .str "tool_use"), ("id", jStr b.id),
      ("name", jStr b.name), ("input", jJson b.input)]
  | .ToolResult b => .obj [("type", .str "tool_result"),
      ("tool_use_id", jStr b.tool_use_id), ("content", jJson b.content),
      ("is_error", jBool b.is_error)]
  | .Other => .obj [("type", .str "other")]

def encodeAssistantMessage (m : AssistantMessage) : Json :=
  .obj [("role", jStr m.role),
        ("content", .arr (m.content.map encodeContentBlock))]

def encodeControlResponseData (d : ControlResponseData) : Json :=
  .obj [("subtype", jStr d.subtype)]

def encodeEnvManagerLogData (d : EnvManagerLogData) : Json :=
  .obj [("category", jStr d.category), ("content", jStr d.content),
        ("level", jStr d.level), ("timestamp", jStr d.timestamp),
        ("extra", jJson d.extra)]

def encodeSessionEvent : SessionEvent → Json
  | .System e => .obj [("type", .str "system"),
      ("created_at", jStr e.created_at), ("uuid", jStr e.uuid),
      ("subtype", jStr e.subtype), ("session_id", jStr e.session_id),
      ("model", jStr e.model), ("cwd", jStr e.cwd),
      ("claude_code_version", jStr e.claude_code_version),
      ("tools", jStrList e.tools), ("agents", jStrList e.agents),
      ("skills", jStrList e.skills),
      ("slash_commands", jStrList e.slash_commands),
      ("mcp_servers", jJsonList e.mcp_servers),
      ("permissionMode", jStr e.permission_mode),
      ("fast_mode_state", jStr e.fast_mode_state),
      ("output_style", jStr e.output_style)]
  | .User e => .obj [("type", .str "user"),
      ("created_at", jStr e.created_at), ("uuid", jStr e.uuid),
      ("session_id", jStr e.session_id),
      ("message", encodeUserMessage e.message),
      ("parent_tool_use_id", jStr e.parent_tool_use_id),
      ("isReplay", jBool e.is_replay)]
  | .Assistant e => .obj [("type", .str "assistant"),
      ("created_at", jStr e.created_at), ("uuid", jStr e.uuid),
      ("session_id", jStr e.session_id),
      ("message", encodeAssistantMessage e.message)]
  | .ToolUseSummary e => .obj [("type", .str "tool_use_summary"),
      ("created_at", jStr e.created_at), ("uuid", jStr e.uuid),
      ("session_id", jStr e.session_id), ("summary", jStr e.summary),
      ("preceding_tool_use_ids", jStrList e.preceding_tool_use_ids)]
  | .ToolProgress e => .obj [("type", .str "tool_progress"),
      ("created_at", jStr e.created_at), ("uuid", jStr e.uuid),
      ("session_id", jStr e.session_id), ("tool_name", jStr e.tool_name),
      ("tool_use_id", jStr e.tool_use_id),
      ("parent_tool_use_id", jStr e.parent_tool_use_id),
      ("elapsed_time_seconds", jNat e.elapsed_time_seconds)]
  | .Result e => .obj [("type", .str "result"),
      ("created_at", jStr e.created_at),
      ("duration_ms", jNat e.duration_ms),
      ("duration_api_ms", jNat e.duration_api_ms),
      ("errors", jStrList e.errors)]
  | .ControlResponse e => .obj [("type", .str "control_response"),
      ("created_at", jStr e.created_at),
      ("response", match e.response with
                   | none => .null
                   | some d => encodeControlResponseData d)]
  | .EnvManagerLog e => .obj [("type", .str "env_manager_log"),
      ("created_at", jStr e.created_at), ("uuid", jStr e.uuid),
      ("data", match e.data with
               | none => .null
               | some d => encodeEnvManagerLogData d)]
  | .Unknown => .obj [("type", .str "unknown")]

/-! ## Normalization reached by decode after encode

A `some Json.null` stored in an optional raw-JSON field serializes to
null and decodes back to `none`; every other field round-trips to
itself.
-/

def normOptJson : Option Json → Option Json
  | some .null => none
  | v => v

def normContentBlock : ContentBlock → ContentBlock
  | .ToolUse b => .ToolUse { b with input := normOptJson b.input }
  | .ToolResult b => .ToolResult { b with content := normOptJson b.content }
  | b => b

def normEnvData (d : EnvManagerLogData) : EnvManagerLogData :=
  { d with extra := normOptJson d.extra }

def normSessionEvent : SessionEvent → SessionEvent
  | .Assistant e =>
    let m := { e.message with content := e.message.content.map normContentBlock }
    .Assistant { e with message := m }
  | .EnvManagerLog e =>
    .EnvManagerLog { e with data := e.data.map normEnvData }
  | e => e

/-! ## Compact JSON rendering (serde_json::to_string) -/

def escapeChar : Char → String
  | '"' => "\\\""
  | '\\' => "\\\\"
  | '\n' => "\\n"
  | '\r' => "\\r"
  | '\t' => "\\t"
  | c => String.singleton c

def renderString (s : String) : String :=
  "\"" ++ String.join (s.data.map escapeChar) ++ "\""

mutual

def Json.render : Json → String
  | .null => "null"
  | .bool true => "true"
  | .bool false => "false"
  | .num n => toString n
  | .str s => renderString s
  | .arr xs => "[" ++ Json.renderArr xs ++ "]"
  | .obj fs => "\x7b" ++ Json.renderObj fs ++ "\x7d"

def Json.renderArr : List Json → String
  | [] => ""
  | [x] => Json.render x
  | x :: y :: xs => Json.render x ++ "," ++ Json.renderArr (y :: xs)

def Json.renderObj : List (String × Json) → String
  | [] => ""
  | [(k, v)] => renderString k ++ ":" ++ Json.render v
  | (k, v) :: f :: fs =>
    renderString k ++ ":" ++ Json.render v ++ "," ++ Json.renderObj (f :: fs)

end

/-! ## Lowercasing and substring matching

`str::to_lowercase` is modelled per character; `str::contains` on
strings is byte-level substring search, which for valid UTF-8 coincides
with character-level infix.
-/

def lowerStr (s : String) : String := ⟨s.data.map Char.toLower⟩

/-- `hay.contains needle` for strings: needle occurs as a contiguous
substring of hay. -/
def strContainsSub (hay needle : String) : Bool :=
  decide (needle.data <:+: hay.data)

/-! ## Full-text search predicate (src/main.rs, event_contains_text) -/

def blockMatches (needle_lower : String) : ContentBlock → Bool
  | .Text t =>
    (t.text.map (fun s => strContainsSub (lowerStr s) needle_lower)).getD false
  | .Thinking t =>
    (t.thinking.map (fun s => strContainsSub (lowerStr s) needle_lower)).getD false
  | .ToolUse t =>
    (t.name.map (fun s => strContainsSub (lowerStr s) needle_lower)).getD false
      || (t.input.map (fun v =>
            strContainsSub (lowerStr (Json.render v)) needle_lower)).getD false
  | .ToolResult t =>
    (t.content.map (fun v =>
      strContainsSub (lowerStr (Json.render v)) needle_lower)).getD false
  | .Other => false

def event_contains_text (event : SessionEvent) (needle : String) : Bool :=
  let needle_lower := lowerStr needle
  match event with
  | .User e =>
    (e.message.content.as_text.map
      (fun t => strContainsSub (lowerStr t) needle_lower)).getD false
  | .Assistant e => e.message.content.any (blockMatches needle_lower)
  | .ToolUseSummary e =>
    (e.summary.map (fun s => strContainsSub (lowerStr s) needle_lower)).getD false
  | .EnvManagerLog e =>
    ((e.data.bind (fun d => d.content)).map
      (fun s => strContainsSub (lowerStr s) needle_lower)).getD false
  | .System e =>
    (e.subtype.map (fun s => strContainsSub (lowerStr s) needle_lower)).getD false
  | _ => false

/-- The variant-specific textual surfaces the spec says are searched,
written from the spec's words for comparison with the code's predicate. -/
def blockSurfaces : ContentBlock → List String
  | .Text t => t.text.toList
  | .Thinking t => t.thinking.toList
  | .ToolUse t => t.name.toList ++ (t.input.map Json.render).toList
  | .ToolResult t => (t.content.map Json.render).toList
  | .Other => []

/-- The searchable surfaces of an event per the spec: user plain-string
content only, assistant block texts with tool names, inputs and
results, tool-use summaries, env-manager log content, system subtype;
nothing for any other variant. -/
def searchSurfacesSpec : SessionEvent → List String
  | .User e =>
    match e.message.content with
    | .Text s => [s]
    | .Blocks _ => []
  | .Assistant e => e.message.content.flatMap blockSurfaces
  | .ToolUseSummary e => e.summary.toList
  | .EnvManagerLog e => (e.data.bind (fun d => d.content)).toList
  | .System e => e.subtype.toList
  | _ => []

/-! ## Paginated event fetching (src/client.rs, ApiClient::get_events)

The model scripts the server as the list of successive responses the
loop would receive: each element answers one page request, either a
transport (connect/send) failure, an HTTP non-2xx response, or a
successful page.
-/

structure EventsResponse where
  data : List SessionEvent
  first_id : Option String
  last_id : Option String
  has_more : Option Bool

inductive PageOutcome where
  | sendFail : PageOutcome
  | httpFail (status : Nat) (body : String) : PageOutcome
  | success (page : EventsResponse) : PageOutcome

/-- What the error reported by get_events carries: a connect/send
failure context holds the page number the code interpolates,
`accumulated/1000 + 1`; an HTTP failure holds status and body and no
page number. -/
inductive FetchError where
  | sendErr (pageShown : Nat) : FetchError
  | httpErr (status : Nat) (body : String) : FetchError
  | outOfScript : FetchError

/-- The page number a FetchError's context carries, if any. -/
def FetchError.pageContext : FetchError → Option Nat
  | .sendErr p => some p
  | _ => none

/-- The pagination loop of get_events.  Returns the outcome together
with the number of page requests issued.  `outOfScript` is the model
artifact for a run that outlives its scripted responses. -/
def getEventsLoop (max_events : Nat) (acc : List SessionEvent) :
    List PageOutcome → Except FetchError (List SessionEvent) × Nat
  | [] => (.error .outOfScript, 1)
  | .sendFail :: _ => (.error (.sendErr (acc.length / 1000 + 1)), 1)
  | .httpFail status body :: _ => (.error (.httpErr status body), 1)
  | .success page :: rest =>
    let acc' := acc ++ page.data
    if max_events > 0 ∧ max_events ≤ acc'.length then
      (.ok (acc'.take max_events), 1)
    else if page.has_more ≠ some true then
      (.ok acc', 1)
    else
      let r := getEventsLoop max_events acc' rest
      (r.1, r.2 + 1)

def get_events (max_events : Nat) (responses : List PageOutcome) :
    Except FetchError (List SessionEvent) × Nat :=
  getEventsLoop max_events [] responses

/-- Total number of events across a list of pages. -/
def sumLen (pages : List EventsResponse) : Nat :=
  (pages.map (fun p => p.data.length)).sum

/-- All the events of a list of pages, in page order. -/
def pagesData (pages : List EventsResponse) : List SessionEvent :=
  (pages.map (fun p => p.data)).flatten

/-- The number of pages the loop consumes before the accumulator first
reaches `n` events (`n > 0`). -/
def pagesNeeded (n : Nat) : List EventsResponse → Nat
  | [] => 0
  | p :: rest =>
    if n ≤ p.data.length then 1 else 1 + pagesNeeded (n - p.data.length) rest

/-! ## Session records and the list-command filter (src/main.rs, cmd_list)

Timestamp parsing is chrono's, an external library; the filter is
parameterized by the parse function, with parsed instants as integers.
-/

structure GitInfo where
  git_type : Option String
  repo : Option String
  branches : Option (List String)

structure SessionOutcome where
  outcome_type : Option String
  git_info : Option GitInfo

structure SessionSource where
  source_type : Option String
  url : Option String
  revision : Option String

structure SessionContext where
  model : Option String
  cwd : Option String
  sources : Option (List SessionSource)
  outcomes : Option (List SessionOutcome)
  allowed_tools : Option (List String)
  disallowed_tools : Option (List String)
  knowledge_base_ids : Option (List String)

structure Session where
  id : String
  title : Option String
  session_status : Option String
  session_type : Option String
  created_at : Option String
  updated_at : Option String
  environment_id : Option String
  session_context : Option SessionContext
  metadata : Option Json
  active_mount_paths : Option (List String)

/-- The filter closure of cmd_list: status must match when a status
filter is given, and a session is dropped by the `after`/`before`
bounds only when its created_at parses and falls outside them. -/
def statusOk (status_filter : Option String) (s : Session) : Bool :=
  match status_filter with
  | some f => s.session_status = some f
  | none => true

/-- `dt < after` drops the session; keep otherwise. -/
def afterOk (after_dt : Option Int) (created_dt : Option Int) : Bool :=
  match after_dt, created_dt with
  | some a, some d => !decide (d < a)
  | _, _ => true

/-- `dt > before` drops the session; keep otherwise. -/
def beforeOk (before_dt : Option Int) (created_dt : Option Int) : Bool :=
  match before_dt, created_dt with
  | some b, some d => !decide (b < d)
  | _, _ => true

def sessionKeep (parseDt : String → Option Int) (status_filter : Option String)
    (after_dt before_dt : Option Int) (s : Session) : Bool :=
  statusOk status_filter s
    && afterOk after_dt (s.created_at.bind parseDt)
    && beforeOk before_dt (s.created_at.bind parseDt)

/-- The filtering stage of cmd_list: keep the sessions passing the
predicate, then take at most `limit`. -/
def cmd_list_filter (parseDt : String → Option Int)
    (status_filter : Option String) (after_dt before_dt : Option Int)
    (limit : Nat) (sessions : List Session) : List Session :=
  (sessions.filter (sessionKeep parseDt status_filter after_dt before_dt)).take limit

/-! ## Credential resolution (src/client.rs, load_credentials) -/

structure OAuthToken where
  access_token : String
  expires_at : Nat
  scopes : List String

structure OAuthCredentials where
  claude_ai_oauth : OAuthToken

/-- The environment credential resolution runs in: whether the
platform exposes a secret store (macOS Keychain), what its lookup
returns when attempted, whether the credentials file exists, and what
reading plus parsing it returns when it does. -/
structure CredEnv where
  keychainAvailable : Bool
  keychainResult : Except String OAuthCredentials
  fileExists : Bool
  fileResult : Except String OAuthCredentials

/-- The all-platforms tail of load_credentials: read the credentials
file when it exists, otherwise fail with the no-credentials error. -/
def fileFallback (env : CredEnv) : Except String OAuthCredentials :=
  if env.fileExists then env.fileResult
  else .error "No Claude Code credentials found"

/-- load_credentials: on platforms with a secret store, a successful
store lookup wins; any store failure falls through to the file. -/
def load_credentials (env : CredEnv) : Except String OAuthCredentials :=
  if env.keychainAvailable then
    match env.keychainResult with
    | .ok creds => .ok creds
    | .error _ => fileFallback env
  else
    fileFallback env

/-! ## Debug formatting of OAuthToken (src/types.rs, OAuthToken::fmt)

Rust's one-line debug_struct output; the access token is replaced by
the literal [REDACTED] and never read.
-/

def debugStr (s : String) : String :=
  "\"" ++ String.join (s.data.map escapeChar) ++ "\""

def debugStrList : List String → String
  | [] => "[]"
  | x :: xs =>
    "[" ++ (x :: xs).tail.foldl (fun acc s => acc ++ ", " ++ debugStr s) (debugStr x) ++ "]"

def oauth_token_debug (t : OAuthToken) : String :=
  "OAuthToken \x7b access_token: " ++ debugStr "[REDACTED]" ++
    ", expires_at: " ++ toString t.expires_at ++
    ", scopes: " ++ debugStrList t.scopes ++ " \x7d"

/-! ## Theorems -/

theorem exBind_ok (a : α) (f : α → Except String β) :
    (Except.ok a).bind f = f a := rfl

theorem exMap_ok (a : α) (f : α → β) :
    (Except.ok a : Except String α).map f = .ok (f a) := rfl

theorem dOptStr_jStr (v : Option String) : dOptStr (some (jStr v)) = .ok v := by
  cases v <;> rfl

theorem dOptNat_jNat (v : Option Nat) : dOptNat (some (jNat v)) = .ok v := by
  cases v <;> rfl

theorem dOptBool_jBool (v : Option Bool) : dOptBool (some (jBool v)) = .ok v := by
  cases v <;> rfl

theorem exMapM_dStr (xs : List String) :
    exMapM dStr (xs.map Json.str) = .ok xs := by
  induction xs with
  | nil => rfl
  | cons x xs ih => simp [exMapM, dStr, exBind_ok, ih]

theorem dOptStrList_jStrList (v : Option (List String)) :
    dOptStrList (some (jStrList v)) = .ok v := by
  cases v with
  | none => rfl
  | some xs => simp [dOptStrList, jStrList, exMapM_dStr, exMap_ok]

theorem dOptJson_jJson (v : Option Json) :
    dOptJson (some (jJson v)) = .ok (normOptJson v) := by
  cases v with
  | none => rfl
  | some u => cases u <;> rfl

theorem dOptJsonList_jJsonList (v : Option (List Json)) :
    dOptJsonList (some (jJsonList v)) = .ok v := by
  cases v <;> rfl

theorem decode_encode_block (b : ContentBlock) :
    decodeContentBlock (encodeContentBlock b) = .ok (normContentBlock b) := by
  cases b with
  | Thinking t =>
    obtain ⟨th, sg⟩ := t
    simp [encodeContentBlock, decodeContentBlock, getField, dOptStr_jStr,
      exBind_ok, normContentBlock]
  | Text t =>
    obtain ⟨tx⟩ := t
    simp [encodeContentBlock, decodeContentBlock, getField, dOptStr_jStr,
      exBind_ok, normContentBlock]
  | ToolUse t =>
    obtain ⟨id, nm, inp⟩ := t
    simp [encodeContentBlock, decodeContentBlock, getField, dOptStr_jStr,
      dOptJson_jJson, exBind_ok, normContentBlock]
  | ToolResult t =>
    obtain ⟨tid, ct, ie⟩ := t
    simp [encodeContentBlock, decodeContentBlock, getField, dOptStr_jStr,
      dOptJson_jJson, dOptBool_jBool, exBind_ok, normContentBlock]
  | Other =>
    simp [encodeContentBlock, decodeContentBlock, getField, normContentBlock]

theorem exMapM_blocks (xs : List ContentBlock) :
    exMapM decodeContentBlock (xs.map encodeContentBlock)
      = .ok (xs.map normContentBlock) := by
  induction xs with
  | nil => rfl
  | cons x xs ih => simp [exMapM, decode_encode_block, exBind_ok, ih]

theorem roundtrip_system (ev : SystemEvent) :
    decodeSessionEvent (encodeSessionEvent (.System ev))
      = .ok (normSessionEvent (.System ev)) := by
  simp [encodeSessionEvent, decodeSessionEvent, getField, decodeSystemFields,
    dOptStr_jStr, dOptStrList_jStrList, dOptJsonList_jJsonList, exBind_ok,
    exMap_ok, normSessionEvent]

theorem roundtrip_user (ev : UserEvent) :
    decodeSessionEvent (encodeSessionEvent (.User ev))
      = .ok (normSessionEvent (.User ev)) := by
  obtain ⟨ca, u, sid, ⟨role, content⟩, ptui, ir⟩ := ev
  cases content <;>
    simp [encodeSessionEvent, decodeSessionEvent, getField, decodeUserFields,
      decodeUserMessage, encodeUserMessage, encodeUserContent,
      decodeUserContent, dOptStr_jStr, dOptBool_jBool, exBind_ok, exMap_ok,
      normSessionEvent]

theorem roundtrip_assistant (ev : AssistantEvent) :
    decodeSessionEvent (encodeSessionEvent (.Assistant ev))
      = .ok (normSessionEvent (.Assistant ev)) := by
  obtain ⟨ca, u, sid, ⟨role, content⟩⟩ := ev
  simp [encodeSessionEvent, decodeSessionEvent, getField,
    decodeAssistantFields, decodeAssistantMessage, encodeAssistantMessage,
    exMapM_blocks, dOptStr_jStr, exBind_ok, exMap_ok, normSessionEvent]

theorem roundtrip_tool_use_summary (ev : ToolUseSummaryEvent) :
    decodeSessionEvent (encodeSessionEvent (.ToolUseSummary ev))
      = .ok (normSessionEvent (.ToolUseSummary ev)) := by
  simp [encodeSessionEvent, decodeSessionEvent, getField,
    decodeToolUseSummaryFields, dOptStr_jStr, dOptStrList_jStrList,
    exBind_ok, exMap_ok, normSessionEvent]

theorem roundtrip_tool_progress (ev : ToolProgressEvent) :
    decodeSessionEvent (encodeSessionEvent (.ToolProgress ev))
      = .ok (normSessionEvent (.ToolProgress ev)) := by
  simp [encodeSessionEvent, decodeSessionEvent, getField,
    decodeToolProgressFields, dOptStr_jStr, dOptNat_jNat, exBind_ok,
    exMap_ok, normSessionEvent]

theorem roundtrip_result (ev : ResultEvent) :
    decodeSessionEvent (encodeSessionEvent (.Result ev))
      = .ok (normSessionEvent (.Result ev)) := by
  simp [encodeSessionEvent, decodeSessionEvent, getField, decodeResultFields,
    dOptStr_jStr, dOptNat_jNat, dOptStrList_jStrList, exBind_ok, exMap_ok,
    normSessionEvent]

theorem roundtrip_control_response (ev : ControlResponseEvent) :
    decodeSessionEvent (encodeSessionEvent (.ControlResponse ev))
      = .ok (normSessionEvent (.ControlResponse ev)) := by
  obtain ⟨ca, resp⟩ := ev
  cases resp <;>
    simp [encodeSessionEvent, decodeSessionEvent, getField,
      decodeControlResponseFields, encodeControlResponseData,
      decodeControlResponseData, dOptStr_jStr, exBind_ok, exMap_ok,
      normSessionEvent]

theorem roundtrip_env_manager_log (ev : EnvManagerLogEvent) :
    decodeSessionEvent (encodeSessionEvent (.EnvManagerLog ev))
      = .ok (normSessionEvent (.EnvManagerLog ev)) := by
  obtain ⟨ca, u, d⟩ := ev
  cases d with
  | none =>
    simp [encodeSessionEvent, decodeSessionEvent, getField,
      decodeEnvManagerLogFields, dOptStr_jStr, exBind_ok, exMap_ok,
      normSessionEvent]
  | some dd =>
    obtain ⟨cat, cont, lvl, ts, extra⟩ := dd
    simp [encodeSessionEvent, decodeSessionEvent, getField,
      decodeEnvManagerLogFields, encodeEnvManagerLogData,
      decodeEnvManagerLogData, dOptStr_jStr, dOptJson_jJson, exBind_ok,
      exMap_ok, normSessionEvent, normEnvData]

/-- Substring occurrence follows from an explicit decomposition. -/
theorem strContainsSub_of_decomp (x a b c : String) (h : x = a ++ b ++ c) :
    strContainsSub x b = true := by
  subst h
  simp only [strContainsSub, decide_eq_true_eq]
  exact ⟨a.data, c.data, by simp⟩

/-- C4 counterexample: the source validates the UTF-8 byte length, not
the character count, so a session ID with eight further bytes spread
over four non-ASCII characters passes validation while failing the
spec's `^session_.{8,}` pattern. -/
theorem c4_counterexample :
    (validate_session_id "session_αβγδ").isOk = true
      ∧ ¬ matchesSpecRegex "session_αβγδ" := by
  constructor
  · rfl
  · decide

/-- C4 (amended): session-ID validation succeeds exactly when the
string starts with "session_" and its UTF-8 byte length is at least 16,
i.e. at least eight further bytes follow the prefix; on ASCII strings
this coincides with the spec's `^session_.{8,}`. -/
theorem c4_validate_session_id_iff (s : String) :
    (validate_session_id s).isOk = true
      ↔ (strStartsWith s "session_" = true ∧ 16 ≤ s.utf8ByteSize) := by
  unfold validate_session_id
  by_cases h : ¬ strStartsWith s "session_" ∨ s.utf8ByteSize < 16
  · rw [if_pos h]
    simp only [Except.isOk, Except.toBool]
    constructor
    · intro hfalse; exact absurd hfalse (by simp)
    · rintro ⟨h1, h2⟩
      rcases h with h | h
      · exact absurd h1 h
      · omega
  · rw [if_neg h]
    push_neg at h
    simp only [Except.isOk, Except.toBool, true_iff]
    exact ⟨by simpa using h.1, by omega⟩

/-- C10: the Debug formatting of an OAuthToken is identical for any two
tokens agreeing on expires_at and scopes (so it never depends on the
access token), always contains the literal [REDACTED], and shows the
expires_at value and the rendered scopes list. -/
theorem c10_oauth_debug_redacts (t1 t2 : OAuthToken)
    (h1 : t1.expires_at = t2.expires_at) (h2 : t1.scopes = t2.scopes) :
    oauth_token_debug t1 = oauth_token_debug t2
      ∧ strContainsSub (oauth_token_debug t1) "[REDACTED]" = true
      ∧ strContainsSub (oauth_token_debug t1) (toString t1.expires_at) = true
      ∧ strContainsSub (oauth_token_debug t1) (debugStrList t1.scopes) = true := by
  have hred : debugStr "[REDACTED]" = "\"" ++ "[REDACTED]" ++ "\"" := by decide
  refine ⟨by simp only [oauth_token_debug, h1, h2], ?_, ?_, ?_⟩
  · refine strContainsSub_of_decomp _
      ("OAuthToken \x7b access_token: " ++ "\"")
      "[REDACTED]"
      ("\"" ++ ", expires_at: " ++ toString t1.expires_at ++ ", scopes: "
        ++ debugStrList t1.scopes ++ " \x7d") ?_
    simp only [oauth_token_debug, hred, String.append_assoc]
  · refine strContainsSub_of_decomp _
      ("OAuthToken \x7b access_token: " ++ debugStr "[REDACTED]" ++ ", expires_at: ")
      (toString t1.expires_at)
      (", scopes: " ++ debugStrList t1.scopes ++ " \x7d") ?_
    simp only [oauth_token_debug, String.append_assoc]
  · refine strContainsSub_of_decomp _
      ("OAuthToken \x7b access_token: " ++ debugStr "[REDACTED]"
        ++ ", expires_at: " ++ toString t1.expires_at ++ ", scopes: ")
      (debugStrList t1.scopes) (" \x7d") ?_
    simp only [oauth_token_debug, String.append_assoc]

/-- C10 witness: two concrete tokens differing only in the access token
format identically, with the redaction marker present. -/
theorem c10_oauth_debug_redacts_witness :
    oauth_token_debug ⟨"super_secret_token", 9999999999, ["read"]⟩
        = oauth_token_debug ⟨"another_secret", 9999999999, ["read"]⟩
      ∧ strContainsSub
          (oauth_token_debug ⟨"super_secret_token", 9999999999, ["read"]⟩)
          "[REDACTED]" = true :=
  ⟨(c10_oauth_debug_redacts ⟨"super_secret_token", 9999999999, ["read"]⟩
      ⟨"another_secret", 9999999999, ["read"]⟩ rfl rfl).1,
   (c10_oauth_debug_redacts ⟨"super_secret_token", 9999999999, ["read"]⟩
      ⟨"another_secret", 9999999999, ["read"]⟩ rfl rfl).2.1⟩

/-- C8: credential resolution returns the secret-store credentials when
the store is available and its lookup succeeds; any store failure or
unavailability falls through to the file source; and the whole
resolution succeeds exactly when the store or the file source
succeeds, so it fails only with every source exhausted. -/
theorem c8_credential_resolution (env : CredEnv) :
    (∀ c, env.keychainAvailable = true → env.keychainResult = .ok c →
        load_credentials env = .ok c)
      ∧ ((env.keychainAvailable = false ∨ env.keychainResult.isOk = false) →
          load_credentials env = fileFallback env)
      ∧ ((load_credentials env).isOk
          = ((env.keychainAvailable && env.keychainResult.isOk)
              || (env.fileExists && env.fileResult.isOk))) := by
  obtain ⟨avail, kres, fex, fres⟩ := env
  refine ⟨?_, ?_, ?_⟩
  · intro c ha hk
    subst ha hk
    simp [load_credentials]
  · intro h
    cases avail with
    | false => simp [load_credentials]
    | true =>
      cases kres with
      | ok c => simp_all [Except.isOk, Except.toBool]
      | error m => simp [load_credentials]
  · cases avail <;> cases kres <;> cases fex <;>
      simp [load_credentials, fileFallback, Except.isOk, Except.toBool]

/-- C8 witness: with the store available but its entry missing and the
file present and parseable, resolution falls through to the file and
succeeds. -/
theorem c8_credential_resolution_witness :
    load_credentials ⟨true, .error "no keychain entry", true, .ok ⟨⟨"tok", 0, []⟩⟩⟩
        = fileFallback ⟨true, .error "no keychain entry", true, .ok ⟨⟨"tok", 0, []⟩⟩⟩
      ∧ (load_credentials
          ⟨true, .error "no keychain entry", true, .ok ⟨⟨"tok", 0, []⟩⟩⟩).isOk
        = ((true && (Except.error "no keychain entry" :
              Except String OAuthCredentials).isOk)
            || (true && (Except.ok ⟨⟨"tok", 0, []⟩⟩ :
              Except String OAuthCredentials).isOk)) :=
  ⟨(c8_credential_resolution
      ⟨true, .error "no keychain entry", true, .ok ⟨⟨"tok", 0, []⟩⟩⟩).2.1
      (Or.inr rfl),
   (c8_credential_resolution
      ⟨true, .error "no keychain entry", true, .ok ⟨⟨"tok", 0, []⟩⟩⟩).2.2⟩

/-- C7: with both an after and a before bound supplied, the cmd_list
filter predicate keeps every session whose created_at is absent or
fails to parse, for any timestamp parser; such a session therefore
appears in the filtered output. -/
theorem c7_timerange_keeps_unparseable (parseDt : String → Option Int)
    (a b : Int) (s : Session) (h : s.created_at.bind parseDt = none) :
    sessionKeep parseDt none (some a) (some b) s = true
      ∧ ∀ sessions : List Session, s ∈ sessions →
          s ∈ sessions.filter (sessionKeep parseDt none (some a) (some b)) := by
  have hkeep : sessionKeep parseDt none (some a) (some b) s = true := by
    simp [sessionKeep, statusOk, afterOk, beforeOk, h]
  exact ⟨hkeep, fun sessions hs => List.mem_filter.mpr ⟨hs, hkeep⟩⟩

/-- C7 witness: a session whose created_at does not parse passes the
filter with both bounds supplied. -/
theorem c7_timerange_keeps_unparseable_witness :
    (Option.bind (some "not-a-timestamp") (fun _ => (none : Option Int)) = none)
      ∧ sessionKeep (fun _ => none) none (some 0) (some 100)
          ⟨"session_01test", none, none, none, some "not-a-timestamp",
            none, none, none, none, none⟩ = true :=
  ⟨rfl,
   (c7_timerange_keeps_unparseable (fun _ => none) 0 100
      ⟨"session_01test", none, none, none, some "not-a-timestamp",
        none, none, none, none, none⟩ rfl).1⟩

/-- C1 counterexample: a well-formed JSON object with no `type` field at
all fails to decode (serde's internally tagged representation requires
the tag), so decoding is not total on objects with a missing
discriminant. -/
theorem c1_counterexample :
    (decodeSessionEvent (Json.obj [("some_field", Json.str "value")])).isOk
      = false := rfl

/-- C1 (amended): for every JSON object whose `type` field holds a
string tag other than the eight fixed variant tags, decoding succeeds
with the unknown variant, on which event_type is "unknown", created_at
is absent and is_conversation is false; an object missing the `type`
field is instead a decode error. -/
theorem c1_unknown_tag_decodes (o : List (String × Json)) (t : String)
    (htag : getField o "type" = some (.str t)) (hmem : t ∉ fixedEventTags) :
    decodeSessionEvent (.obj o) = .ok .Unknown
      ∧ SessionEvent.event_type .Unknown = "unknown"
      ∧ SessionEvent.created_at .Unknown = none
      ∧ SessionEvent.is_conversation .Unknown = false := by
  simp only [fixedEventTags, List.mem_cons, List.not_mem_nil, or_false,
    not_or] at hmem
  obtain ⟨h1, h2, h3, h4, h5, h6, h7, h8⟩ := hmem
  refine ⟨?_, rfl, rfl, rfl⟩
  simp [decodeSessionEvent, htag, h1, h2, h3, h4, h5, h6, h7, h8]

/-- C1 witness: an object tagged with a future event type decodes to
the unknown variant. -/
theorem c1_unknown_tag_decodes_witness :
    getField [("type", Json.str "future_event_type"),
        ("some_field", Json.str "value")] "type"
        = some (.str "future_event_type")
      ∧ "future_event_type" ∉ fixedEventTags
      ∧ decodeSessionEvent
          (.obj [("type", Json.str "future_event_type"),
            ("some_field", Json.str "value")]) = .ok .Unknown :=
  ⟨rfl, by decide,
   (c1_unknown_tag_decodes
      [("type", Json.str "future_event_type"), ("some_field", Json.str "value")]
      "future_event_type" rfl (by decide)).1⟩

/-- One unfolding step of the loop on a successful page. -/
theorem getEventsLoop_success_cons (n : Nat) (acc : List SessionEvent)
    (page : EventsResponse) (rest : List PageOutcome) :
    getEventsLoop n acc (.success page :: rest)
      = if n > 0 ∧ n ≤ (acc ++ page.data).length then
          (.ok ((acc ++ page.data).take n), 1)
        else if page.has_more ≠ some true then (.ok (acc ++ page.data), 1)
        else ((getEventsLoop n (acc ++ page.data) rest).1,
              (getEventsLoop n (acc ++ page.data) rest).2 + 1) := rfl

theorem sumLen_nil : sumLen [] = 0 := rfl

theorem sumLen_cons (p : EventsResponse) (rest : List EventsResponse) :
    sumLen (p :: rest) = p.data.length + sumLen rest := by
  simp [sumLen]

theorem pagesData_nil : pagesData [] = [] := rfl

theorem pagesData_cons (p : EventsResponse) (rest : List EventsResponse) :
    pagesData (p :: rest) = p.data ++ pagesData rest := by
  simp [pagesData]

theorem length_pagesData (pages : List EventsResponse) :
    (pagesData pages).length = sumLen pages := by
  induction pages with
  | nil => rfl
  | cons p rest ih => simp [pagesData_cons, sumLen_cons, ih]

/-- The number of pages consumed before the accumulator first reaches
`n` events is characterized by its prefix sums: the pages before the
last fetched one hold fewer than `n` events, and including the last
fetched one at least `n`. -/
theorem pagesNeeded_spec (pages : List EventsResponse) :
    ∀ n : Nat, 0 < n → n ≤ sumLen pages →
      sumLen (pages.take (pagesNeeded n pages - 1)) < n
        ∧ n ≤ sumLen (pages.take (pagesNeeded n pages)) := by
  induction pages with
  | nil =>
    intro n hn htot
    rw [sumLen_nil] at htot
    omega
  | cons p rest ih =>
    intro n hn htot
    by_cases hfit : n ≤ p.data.length
    · have h1 : pagesNeeded n (p :: rest) = 1 := by
        simp [pagesNeeded, hfit]
      rw [h1]
      simp [sumLen_cons, sumLen_nil]
      omega
    · have hlt : p.data.length < n := by omega
      have hrest : n - p.data.length ≤ sumLen rest := by
        rw [sumLen_cons] at htot
        omega
      have hpos : 0 < n - p.data.length := by omega
      obtain ⟨ih1, ih2⟩ := ih (n - p.data.length) hpos hrest
      have hK : pagesNeeded n (p :: rest)
          = 1 + pagesNeeded (n - p.data.length) rest := by
        simp [pagesNeeded, hfit]
      have hK1 : 1 ≤ pagesNeeded (n - p.data.length) rest := by
        cases rest with
        | nil =>
          rw [sumLen_nil] at hrest
          omega
        | cons q qs =>
          by_cases hq : n - p.data.length ≤ q.data.length <;>
            simp [pagesNeeded, hq]
      rw [hK]
      constructor
      · have : 1 + pagesNeeded (n - p.data.length) rest - 1
            = (pagesNeeded (n - p.data.length) rest - 1) + 1 := by omega
        rw [this, List.take_succ_cons, sumLen_cons]
        omega
      · rw [Nat.add_comm 1, List.take_succ_cons, sumLen_cons]
        omega

/-- The pagination loop under a positive cap: with every non-final page
marked has_more = true and enough total events, it stops after exactly
the pages needed to reach the cap and truncates the accumulator to the
cap. -/
theorem getEventsLoop_cap (pages : List EventsResponse) :
    ∀ (n : Nat) (acc : List SessionEvent), 0 < n → acc.length < n →
      (∀ p ∈ pages.dropLast, p.has_more = some true) →
      n - acc.length ≤ sumLen pages →
      getEventsLoop n acc (pages.map .success)
        = (.ok ((acc ++ pagesData
              (pages.take (pagesNeeded (n - acc.length) pages))).take n),
           pagesNeeded (n - acc.length) pages) := by
  induction pages with
  | nil =>
    intro n acc hn hacc hmore htot
    rw [sumLen_nil] at htot
    omega
  | cons p rest ih =>
    intro n acc hn hacc hmore htot
    by_cases hfit : n ≤ acc.length + p.data.length
    · have hcap : n > 0 ∧ n ≤ (acc ++ p.data).length := by
        rw [List.length_append]
        omega
      have hK : pagesNeeded (n - acc.length) (p :: rest) = 1 := by
        have : n - acc.length ≤ p.data.length := by omega
        simp [pagesNeeded, this]
      simp only [List.map_cons, getEventsLoop, hK]
      rw [if_pos hcap]
      simp [pagesData_cons, pagesData_nil]
    · have hlt : acc.length + p.data.length < n := by omega
      have hcap : ¬ (n > 0 ∧ n ≤ (acc ++ p.data).length) := by
        rw [List.length_append]
        omega
      have hrestne : rest ≠ [] := by
        intro hcontra
        subst hcontra
        rw [sumLen_cons, sumLen_nil] at htot
        omega
      have hmorep : p.has_more = some true := by
        apply hmore
        cases rest with
        | nil => exact absurd rfl hrestne
        | cons q qs => simp [List.dropLast]
      have hmorerest : ∀ q ∈ rest.dropLast, q.has_more = some true := by
        intro q hq
        apply hmore
        cases rest with
        | nil => exact absurd rfl hrestne
        | cons r rs =>
          simp only [List.dropLast] at hq ⊢
          exact List.mem_cons_of_mem _ hq
      have hih := ih n (acc ++ p.data) hn
        (by rw [List.length_append]; omega) hmorerest
        (by rw [sumLen_cons] at htot; rw [List.length_append]; omega)
      have harith : n - (acc ++ p.data).length
          = n - acc.length - p.data.length := by
        rw [List.length_append]
        omega
      have hK : pagesNeeded (n - acc.length) (p :: rest)
          = 1 + pagesNeeded (n - acc.length - p.data.length) rest := by
        have : ¬ (n - acc.length ≤ p.data.length) := by omega
        simp [pagesNeeded, this]
      simp only [List.map_cons, getEventsLoop]
      rw [if_neg hcap, if_neg (by simp [hmorep]), hih, harith, hK,
        Nat.add_comm 1, List.take_succ_cons, pagesData_cons,
        List.append_assoc]

/-- The pagination loop with max_events = 0: it fetches every page
until the first page not marked has_more = true, accumulating all their
events. -/
theorem getEventsLoop_unbounded (pages : List EventsResponse) :
    ∀ acc : List SessionEvent, pages ≠ [] →
      (∀ p ∈ pages.dropLast, p.has_more = some true) →
      (∀ plast, pages.getLast? = some plast → plast.has_more ≠ some true) →
      getEventsLoop 0 acc (pages.map .success)
        = (.ok (acc ++ pagesData pages), pages.length) := by
  induction pages with
  | nil => intro acc hne _ _; exact absurd rfl hne
  | cons p rest ih =>
    intro acc _ hmore hlast
    cases rest with
    | nil =>
      have hp : p.has_more ≠ some true := hlast p rfl
      simp only [List.map_cons, List.map_nil, getEventsLoop]
      rw [if_neg (by simp), if_pos hp]
      simp [pagesData_cons, pagesData_nil]
    | cons q qs =>
      have hmorep : p.has_more = some true := by
        apply hmore
        simp [List.dropLast]
      have hih := ih (acc ++ p.data) (by simp)
        (by
          intro x hx
          apply hmore
          simp only [List.dropLast] at hx ⊢
          exact List.mem_cons_of_mem _ hx)
        (by
          intro plast hpl
          apply hlast
          rw [List.getLast?_cons_cons]
          exact hpl)
      rw [List.map_cons, getEventsLoop_success_cons,
        if_neg (by simp), if_neg (by simp [hmorep])]
      rw [List.map_cons] at hih ⊢
      rw [hih]
      simp [pagesData_cons, List.length_cons]

/-- C2: with a positive cap n and pages totalling at least n events
(every non-final page marked has_more = true), get_events returns
exactly n events, namely the accumulated events of the pages fetched so
far truncated to n after the last fetched page; it fetches exactly the
minimal number of pages whose events reach the cap, issuing no request
once the accumulator has reached it; and with max_events = 0 it fetches
every page until exhaustion. -/
theorem c2_pagination_cap (pages : List EventsResponse) (n : Nat) :
    (0 < n → (∀ p ∈ pages.dropLast, p.has_more = some true) →
      n ≤ sumLen pages →
      get_events n (pages.map .success)
          = (.ok ((pagesData (pages.take (pagesNeeded n pages))).take n),
             pagesNeeded n pages)
        ∧ ((pagesData (pages.take (pagesNeeded n pages))).take n).length = n
        ∧ sumLen (pages.take (pagesNeeded n pages - 1)) < n
        ∧ n ≤ sumLen (pages.take (pagesNeeded n pages)))
      ∧ (pages ≠ [] → (∀ p ∈ pages.dropLast, p.has_more = some true) →
          (∀ plast, pages.getLast? = some plast →
            plast.has_more ≠ some true) →
          get_events 0 (pages.map .success)
            = (.ok (pagesData pages), pages.length)) := by
  constructor
  · intro hn hmore htot
    have hcap := getEventsLoop_cap pages n [] hn (by simpa using hn)
      hmore (by simpa using htot)
    obtain ⟨hlo, hhi⟩ := pagesNeeded_spec pages n hn htot
    refine ⟨?_, ?_, hlo, hhi⟩
    · unfold get_events
      simpa using hcap
    · rw [List.length_take, length_pagesData]
      omega
  · intro hne hmore hlast
    have h := getEventsLoop_unbounded pages [] hne hmore hlast
    unfold get_events
    simpa using h

/-- C2 witness: two pages of two and one events under cap 2 yield
exactly the first page's two events in one request; with cap 0 both
pages and all three events are fetched. -/
theorem c2_pagination_cap_witness :
    get_events 2 ([⟨[.Unknown, .Unknown], none, some "c1", some true⟩,
          ⟨[.Unknown], none, none, some false⟩].map .success)
        = (.ok [.Unknown, .Unknown], 1)
      ∧ get_events 0 ([⟨[.Unknown, .Unknown], none, some "c1", some true⟩,
          ⟨[.Unknown], none, none, some false⟩].map .success)
        = (.ok [.Unknown, .Unknown, .Unknown], 2) := by
  have h := c2_pagination_cap
    [⟨[.Unknown, .Unknown], none, some "c1", some true⟩,
      ⟨[.Unknown], none, none, some false⟩] 2
  refine ⟨?_, ?_⟩
  · exact (h.1 (by omega) (by decide) (by decide)).1
  · exact h.2 (by simp) (by decide) (by decide)

theorem blockMatches_iff (nl : String) (b : ContentBlock) :
    blockMatches nl b = true
      ↔ ∃ s ∈ blockSurfaces b, strContainsSub (lowerStr s) nl = true := by
  cases b with
  | Text t =>
    obtain ⟨tx⟩ := t
    cases tx <;> simp [blockMatches, blockSurfaces]
  | Thinking t =>
    obtain ⟨th, sg⟩ := t
    cases th <;> simp [blockMatches, blockSurfaces]
  | ToolUse t =>
    obtain ⟨id, nm, inp⟩ := t
    cases nm <;> cases inp <;> simp [blockMatches, blockSurfaces]
  | ToolResult t =>
    obtain ⟨tid, ct, ie⟩ := t
    cases ct <;> simp [blockMatches, blockSurfaces]
  | Other => simp [blockMatches, blockSurfaces]

/-- C6: the full-text search predicate holds exactly when the
lowercased needle occurs as a substring of the lowercase form of one of
the variant-specific textual surfaces: the plain-string content of a
user event (array content never matches), a text or thinking field,
tool-use name or rendered input, or rendered tool-result content of an
assistant event's blocks, the summary of a tool_use_summary, the log
content of an env_manager_log, or the subtype of a system event; events
of every other variant never match. -/
theorem c6_search_iff (e : SessionEvent) (needle : String) :
    event_contains_text e needle = true
      ↔ ∃ s ∈ searchSurfacesSpec e,
          strContainsSub (lowerStr s) (lowerStr needle) = true := by
  cases e with
  | User ev =>
    obtain ⟨ca, u, sid, ⟨role, content⟩, ptui, ir⟩ := ev
    cases content <;>
      simp [event_contains_text, searchSurfacesSpec, UserContent.as_text]
  | Assistant ev =>
    simp only [event_contains_text, searchSurfacesSpec, List.any_eq_true,
      blockMatches_iff]
    constructor
    · rintro ⟨b, hb, s, hs, hmatch⟩
      exact ⟨s, List.mem_flatMap.mpr ⟨b, hb, hs⟩, hmatch⟩
    · rintro ⟨s, hmem, hmatch⟩
      obtain ⟨b, hb, hs⟩ := List.mem_flatMap.mp hmem
      exact ⟨b, hb, s, hs, hmatch⟩
  | ToolUseSummary ev =>
    obtain ⟨ca, u, sid, summary, pr⟩ := ev
    cases summary <;> simp [event_contains_text, searchSurfacesSpec]
  | EnvManagerLog ev =>
    obtain ⟨ca, u, d⟩ := ev
    cases d with
    | none => simp [event_contains_text, searchSurfacesSpec]
    | some dd =>
      obtain ⟨cat, cont, lvl, ts, extra⟩ := dd
      cases cont <;> simp [event_contains_text, searchSurfacesSpec]
  | System ev =>
    obtain ⟨ca, u, st, sid, mo, cw, cv, tl, ag, sk, sl, mc, pm, fm, os⟩ := ev
    cases st <;> simp [event_contains_text, searchSurfacesSpec]
  | ToolProgress ev => simp [event_contains_text, searchSurfacesSpec]
  | Result ev => simp [event_contains_text, searchSurfacesSpec]
  | ControlResponse ev => simp [event_contains_text, searchSurfacesSpec]
  | Unknown => simp [event_contains_text, searchSurfacesSpec]

/-- C5: decoding the re-encoding of any fixed (non-unknown) event
variant succeeds, and the decoded event preserves event_type and
created_at; the serialized `type` tag equals the variant's wire
discriminant, i.e. its event_type value. -/
theorem c5_roundtrip (e : SessionEvent) (h : e ≠ .Unknown) :
    decodeSessionEvent (encodeSessionEvent e) = .ok (normSessionEvent e)
      ∧ (normSessionEvent e).event_type = e.event_type
      ∧ (normSessionEvent e).created_at = e.created_at
      ∧ Json.tag (encodeSessionEvent e) = some e.event_type := by
  cases e with
  | System ev => exact ⟨roundtrip_system ev, rfl, rfl, rfl⟩
  | User ev => exact ⟨roundtrip_user ev, rfl, rfl, rfl⟩
  | Assistant ev => exact ⟨roundtrip_assistant ev, rfl, rfl, rfl⟩
  | ToolUseSummary ev => exact ⟨roundtrip_tool_use_summary ev, rfl, rfl, rfl⟩
  | ToolProgress ev => exact ⟨roundtrip_tool_progress ev, rfl, rfl, rfl⟩
  | Result ev => exact ⟨roundtrip_result ev, rfl, rfl, rfl⟩
  | ControlResponse ev => exact ⟨roundtrip_control_response ev, rfl, rfl, rfl⟩
  | EnvManagerLog ev => exact ⟨roundtrip_env_manager_log ev, rfl, rfl, rfl⟩
  | Unknown => exact absurd rfl h

/-- C5 witness: a concrete result event round-trips with its tag,
event_type and created_at preserved. -/
theorem c5_roundtrip_witness :
    decodeSessionEvent (encodeSessionEvent
        (.Result ⟨some "2025-01-01T00:00:00Z", some 15000, none, none⟩))
        = .ok (normSessionEvent
            (.Result ⟨some "2025-01-01T00:00:00Z", some 15000, none, none⟩))
      ∧ Json.tag (encodeSessionEvent
          (.Result ⟨some "2025-01-01T00:00:00Z", some 15000, none, none⟩))
        = some (SessionEvent.Result
            ⟨some "2025-01-01T00:00:00Z", some 15000, none, none⟩).event_type :=
  ⟨(c5_roundtrip (.Result ⟨some "2025-01-01T00:00:00Z", some 15000, none, none⟩)
      (fun hh => SessionEvent.noConfusion hh)).1,
   (c5_roundtrip (.Result ⟨some "2025-01-01T00:00:00Z", some 15000, none, none⟩)
      (fun hh => SessionEvent.noConfusion hh)).2.2.2⟩

/-- C3: a page whose has_more flag is absent or not true ends the
pagination loop: the remaining scripted responses are never consulted
and exactly one further page request is issued, whatever the cursor on
the page and whatever max_events; in particular a first page with
has_more not true means exactly one page request in total. -/
theorem c3_hasmore_terminates (max_events : Nat) (acc : List SessionEvent)
    (r : EventsResponse) (rest : List PageOutcome)
    (h : r.has_more ≠ some true) :
    getEventsLoop max_events acc (.success r :: rest)
        = getEventsLoop max_events acc [.success r]
      ∧ (getEventsLoop max_events acc (.success r :: rest)).2 = 1
      ∧ (get_events max_events (.success r :: rest)).2 = 1 := by
  have hstop : ∀ (acc' : List SessionEvent) (tail : List PageOutcome),
      getEventsLoop max_events acc' (.success r :: tail)
        = if max_events > 0 ∧ max_events ≤ (acc' ++ r.data).length
          then (.ok ((acc' ++ r.data).take max_events), 1)
          else (.ok (acc' ++ r.data), 1) := by
    intro acc' tail
    simp only [getEventsLoop]
    by_cases hc : max_events > 0 ∧ max_events ≤ (acc' ++ r.data).length
    · rw [if_pos hc, if_pos hc]
    · rw [if_neg hc, if_neg hc, if_pos h]
  have hstep : getEventsLoop max_events acc (.success r :: rest)
      = getEventsLoop max_events acc [.success r] := by
    rw [hstop acc rest, hstop acc []]
  refine ⟨hstep, ?_, ?_⟩
  · rw [hstop acc rest]
    split <;> rfl
  · unfold get_events
    rw [hstop [] rest]
    split <;> rfl

/-- C3 witness: a first page with has_more = false and a live cursor
ends fetching after one page request even though further responses are
scripted. -/
theorem c3_hasmore_terminates_witness :
    ((⟨[.Unknown], none, some "cursor", some false⟩ :
        EventsResponse).has_more ≠ some true)
      ∧ (get_events 0 [.success ⟨[.Unknown], none, some "cursor", some false⟩,
          .success ⟨[], none, none, none⟩]).2 = 1 :=
  ⟨by decide,
   (c3_hasmore_terminates 0 [] ⟨[.Unknown], none, some "cursor", some false⟩
      [.success ⟨[], none, none, none⟩] (by decide)).2.2⟩

/-- C9 counterexample: an HTTP non-2xx failure on the second page aborts
the fetch, but the resulting error carries no page index at all, and a
connect failure on the second page reports page 1 (accumulated/1000 + 1
with 2 accumulated events), so the error context does not surface the
index of the failed page. -/
theorem c9_counterexample :
    (get_events 0 [.success ⟨[.Unknown, .Unknown], none, some "e2", some true⟩,
        PageOutcome.httpFail 500 "server error"]).1
        = .error (.httpErr 500 "server error")
      ∧ (FetchError.httpErr 500 "server error").pageContext = none
      ∧ (get_events 0 [.success ⟨[.Unknown, .Unknown], none, some "e2", some true⟩,
          PageOutcome.sendFail]).1 = .error (.sendErr 1) :=
  ⟨rfl, rfl, rfl⟩

/-- C9 (amended): any page whose transport request fails or returns a
non-2xx status aborts the whole fetch with an error and no partial
event sequence; a connect/send failure's context carries the page
number the code computes as accumulated/1000 + 1, while a non-2xx
failure carries the status and body verbatim and no page number. -/
theorem c9_page_failure_aborts (max_events : Nat) (acc : List SessionEvent)
    (rest : List PageOutcome) (status : Nat) (body : String) :
    getEventsLoop max_events acc (.sendFail :: rest)
        = (.error (.sendErr (acc.length / 1000 + 1)), 1)
      ∧ (FetchError.sendErr (acc.length / 1000 + 1)).pageContext
          = some (acc.length / 1000 + 1)
      ∧ getEventsLoop max_events acc (.httpFail status body :: rest)
          = (.error (.httpErr status body), 1)
      ∧ (FetchError.httpErr status body).pageContext = none
      ∧ ∀ r : EventsResponse, r.has_more = some true →
          (max_events = 0 ∨ (acc ++ r.data).length < max_events) →
          getEventsLoop max_events acc
              (.success r :: .httpFail status body :: rest)
            = (.error (.httpErr status body), 2) := by
  refine ⟨rfl, rfl, rfl, rfl, ?_⟩
  intro r hmore hcap
  have hc : ¬ (max_events > 0 ∧ max_events ≤ (acc ++ r.data).length) := by
    simp only [List.length_append] at hcap ⊢
    omega
  simp only [getEventsLoop]
  rw [if_neg hc, if_neg (by simp [hmore])]

/-- C9 witness: a mid-run non-2xx page failure aborts the whole fetch
after consuming the one successful page. -/
theorem c9_page_failure_aborts_witness :
    ((⟨[.Unknown], none, some "c1", some true⟩ :
        EventsResponse).has_more = some true)
      ∧ getEventsLoop 0 []
          (.success ⟨[.Unknown], none, some "c1", some true⟩
            :: .httpFail 403 "forbidden" :: [])
        = (.error (.httpErr 403 "forbidden"), 2) :=
  ⟨rfl,
   (c9_page_failure_aborts 0 [] [] 403 "forbidden").2.2.2.2
      ⟨[.Unknown], none, some "c1", some true⟩ rfl (Or.inl rfl)⟩

end Teleport
